import Mathlib

/-!
Shallow embedding of src/server.js (ig-auto-dm), a webhook service that
sends one private reply per (post, commenter) pair and keeps a bounded
activity log in a JSON file.

Modelling conventions:
- The JSON store (dm_text, sent_keys, logs) is the structure Store.
  sent_keys is an association list (JS object: assignment replaces an
  existing key in place, otherwise appends).
- Persistence: a Sys bundle carries the in-memory DB, the on-disk copy
  (disk, updated exactly where the code calls saveData), and the trace of
  outbound private-reply calls (calls), appended at each sendPrivateReply
  invocation, successful or not.
- JS truthiness is modelled explicitly: a query/body string is truthy iff
  present and non-empty; a sent_keys timestamp is truthy iff non-zero.
- The outbound sendPrivateReply is a parameter
  send : String -> String -> Except String Unit; Except.error e models a
  thrown Error whose message is e.
- Timestamps (Date.now and the log time) are a Nat parameter now.
- res.sendStatus/res.send are modelled as a status code paired with the
  handler-supplied body (none when the handler supplies no body).
-/

/-- One activity-log record: time, type, msg plus the spread extra fields. -/
structure LogEntry where
  time : Nat
  type : String
  msg : String
  extra : List (String × String)
deriving DecidableEq, Repr

/-- The persisted JSON document: dm_text, sent_keys, logs. -/
structure Store where
  dm_text : String
  sent_keys : List (String × Nat)
  logs : List LogEntry
deriving DecidableEq, Repr

/-- Default document returned by loadData when the file is missing. -/
def defaultData : Store :=
  { dm_text := "Thanks for commenting ✅ Here’s the link: https://yourlink.com"
    sent_keys := []
    logs := [] }

/-- JS object property read: DB.sent_keys[key]. -/
def lookupKey : List (String × Nat) → String → Option Nat
  | [], _ => none
  | (k, v) :: rest, key => if k = key then some v else lookupKey rest key

/-- Truthiness of DB.sent_keys[key]: present with a non-zero timestamp. -/
def keyTruthy (m : List (String × Nat)) (key : String) : Bool :=
  match lookupKey m key with
  | some v => decide (v ≠ 0)
  | none => false

/-- JS object property write: DB.sent_keys[key] = v. -/
def insertKey : List (String × Nat) → String → Nat → List (String × Nat)
  | [], key, v => [(key, v)]
  | (k, w) :: rest, key, v =>
      if k = key then (k, v) :: rest else (k, w) :: insertKey rest key v

/-- The record pushed by addLog. -/
def mkLog (type msg : String) (extra : List (String × String)) (now : Nat) : LogEntry :=
  { time := now, type := type, msg := msg, extra := extra }

/-- addLog(data, type, msg, extra): unshift the new entry, keep last 200. -/
def addLog (data : Store) (type msg : String) (extra : List (String × String))
    (now : Nat) : Store :=
  { data with logs := (mkLog type msg extra now :: data.logs).take 200 }

/-- JS truthiness of an optional string (undefined and "" are falsy). -/
def truthyStr : Option String → Bool
  | none => false
  | some s => !s.isEmpty

/-- GET /webhook: echo hub.challenge with 200 when mode is subscribe and
the token strictly equals VERIFY_TOKEN; otherwise sendStatus(403). -/
def webhookVerify (VERIFY_TOKEN mode token challenge : Option String) :
    Nat × Option String :=
  if mode = some "subscribe" ∧ token = VERIFY_TOKEN then (200, challenge)
  else (403, none)

/-- value object of a change: id, media.id, from.id may each be absent. -/
structure CommentValue where
  id : Option String
  media_id : Option String
  from_id : Option String
deriving DecidableEq, Repr

/-- A change inside a webhook entry; change.value may be absent. -/
structure Change where
  value : Option CommentValue
deriving DecidableEq, Repr

/-- An entry of the webhook body; entry.changes may be absent. -/
structure WebhookEntry where
  changes : Option (List Change)
deriving DecidableEq, Repr

/-- The POST /webhook body: object tag and the entry array. -/
structure WebhookBody where
  object : String
  entry : Option (List WebhookEntry)
deriving DecidableEq, Repr

/-- Field extraction with the JS guard
if (!comment_id || !media_id || !from_id) continue. -/
def extractIds (c : Change) : Option (String × String × String) :=
  match c.value with
  | none => none
  | some v =>
    match v.id, v.media_id, v.from_id with
    | some cid, some mid, some fid =>
        if cid.isEmpty || mid.isEmpty || fid.isEmpty then none
        else some (cid, mid, fid)
    | _, _, _ => none

/-- The dedupe key media_id + ":" + from_id. -/
def mkKey (mid fid : String) : String := mid ++ ":" ++ fid

/-- The outbound message: DB.dm_text || "Thanks for commenting ✅". -/
def messageOf (db : Store) : String :=
  if db.dm_text.isEmpty then "Thanks for commenting ✅" else db.dm_text

/-- Process-wide state: in-memory DB, on-disk copy, outbound call trace. -/
structure Sys where
  db : Store
  disk : Store
  calls : List (String × String)
deriving DecidableEq, Repr

/-- Result of processing a list of changes: normal completion, or a thrown
error carrying the state at the throw point. -/
inductive StepResult where
  | ok (s : Sys)
  | err (e : String) (s : Sys)
deriving DecidableEq, Repr

/-- The body of the per-change loop of app.post("/webhook"): extract ids,
dedupe check with a "skip" log, otherwise sendPrivateReply, then record the
key, a "sent" log, and saveData. -/
def processChange (send : String → String → Except String Unit) (now : Nat)
    (s : Sys) (c : Change) : StepResult :=
  match extractIds c with
  | none => .ok s
  | some (cid, mid, fid) =>
    let key := mkKey mid fid
    if keyTruthy s.db.sent_keys key then
      .ok { s with db := addLog s.db "skip" "Already messaged for this post" [("key", key)] now }
    else
      let message := messageOf s.db
      let s1 : Sys := { s with calls := s.calls ++ [(cid, message)] }
      match send cid message with
      | .error e => .err e s1
      | .ok _ =>
        let db1 : Store := { s1.db with sent_keys := insertKey s1.db.sent_keys key now }
        let db2 := addLog db1 "sent" "DM sent via private reply" [("key", key), ("comment_id", cid)] now
        .ok { db := db2, disk := db2, calls := s1.calls }

/-- The nested for-loops over changes, stopping at the first thrown error. -/
def processChanges (send : String → String → Except String Unit) (now : Nat) :
    Sys → List Change → StepResult
  | s, [] => .ok s
  | s, c :: cs =>
    match processChange send now s c with
    | .ok s1 => processChanges send now s1 cs
    | .err e s1 => .err e s1

/-- All changes of the body in loop order (entry and changes default to []). -/
def allChanges (b : WebhookBody) : List Change :=
  (b.entry.getD []).foldr (fun e acc => e.changes.getD [] ++ acc) []

/-- POST /webhook processing after the immediate 200 acknowledgment:
ignore non-instagram payloads; otherwise run the loops under the catch-all
that records an "error" log and saveData. -/
def postWebhook (send : String → String → Except String Unit) (now : Nat)
    (b : WebhookBody) (s : Sys) : Sys :=
  if b.object = "instagram" then
    match processChanges send now s (allChanges b) with
    | .ok s1 => s1
    | .err e s1 =>
      let db := addLog s1.db "error" "Webhook processing failed" [("error", e)] now
      { db := db, disk := db, calls := s1.calls }
  else s

/-- requireAuth: pass must strictly equal a truthy ADMIN_PASSWORD.
pass is the value of req.query.pass || req.headers["x-admin-pass"]. -/
def authOk (ADMIN_PASSWORD pass : Option String) : Bool :=
  truthyStr ADMIN_PASSWORD && pass == ADMIN_PASSWORD

/-- GET /admin: renders the dashboard; mutates nothing. -/
def adminGet (ADMIN_PASSWORD pass : Option String) (s : Sys) : Nat × Sys :=
  if authOk ADMIN_PASSWORD pass then (200, s) else (401, s)

/-- POST /admin/save: trim req.body.dm_text, keep the old text when the
trimmed text is empty, add a "config" log, saveData, redirect (302). -/
def adminSave (ADMIN_PASSWORD pass : Option String) (body_dm : Option String)
    (now : Nat) (s : Sys) : Nat × Sys :=
  if authOk ADMIN_PASSWORD pass then
    let t := (body_dm.getD "").trim
    let db1 : Store := { s.db with dm_text := if t.isEmpty then s.db.dm_text else t }
    let db2 := addLog db1 "config" "DM text updated" [] now
    (302, { db := db2, disk := db2, calls := s.calls })
  else (401, s)

/-- POST /admin/reset: clear sent_keys, add a "config" log, saveData. -/
def adminReset (ADMIN_PASSWORD pass : Option String) (now : Nat) (s : Sys) :
    Nat × Sys :=
  if authOk ADMIN_PASSWORD pass then
    let db1 : Store := { s.db with sent_keys := [] }
    let db2 := addLog db1 "config" "sent_keys reset" [] now
    (200, { db := db2, disk := db2, calls := s.calls })
  else (401, s)

/-- A change carries the pair (mid, fid) when extraction yields exactly
that media id and commenter id (with some comment id). -/
def isPairChange (c : Change) (mid fid : String) : Prop :=
  ∃ cid, extractIds c = some (cid, mid, fid)

/-- The "skip" record pushed for an already-messaged pair. -/
def skipEntry (key : String) (now : Nat) : LogEntry :=
  mkLog "skip" "Already messaged for this post" [("key", key)] now

/-- The "sent" record pushed after a successful private reply. -/
def sentEntry (key cid : String) (now : Nat) : LogEntry :=
  mkLog "sent" "DM sent via private reply" [("key", key), ("comment_id", cid)] now

/-- The "error" record pushed by the catch-all handler. -/
def errorEntry (e : String) (now : Nat) : LogEntry :=
  mkLog "error" "Webhook processing failed" [("error", e)] now

/-- One addLog invocation, as performed by some caller. -/
structure LogOp where
  type : String
  msg : String
  extra : List (String × String)
  time : Nat
deriving DecidableEq, Repr

/-- The record an addLog invocation pushes. -/
def entryOf (o : LogOp) : LogEntry := mkLog o.type o.msg o.extra o.time

/-- Perform one recorded addLog invocation on the store. -/
def applyOp (d : Store) (o : LogOp) : Store := addLog d o.type o.msg o.extra o.time

/-- Perform a sequence of addLog invocations, oldest first. -/
def appendMany (ops : List LogOp) (d : Store) : Store := ops.foldl applyOp d

/-- Fresh system state as on first startup with no data file. -/
def defaultSys : Sys := { db := defaultData, disk := defaultData, calls := [] }

/-- An outbound sender that always succeeds. -/
def sendOk : String → String → Except String Unit := fun _ _ => Except.ok ()

/-- An outbound sender that always fails with reason "boom". -/
def sendBoom : String → String → Except String Unit := fun _ _ => Except.error "boom"

/-- A change whose value carries comment id "c1" on media "m" from user "u". -/
def chgMU : Change := { value := some { id := some "c1", media_id := some "m", from_id := some "u" } }

/-- A second change on media "m" from user "u", comment id "c2". -/
def chgMU2 : Change := { value := some { id := some "c2", media_id := some "m", from_id := some "u" } }

/-- A store that already messaged the pair ("m", "u"). -/
def storeMU : Store := { dm_text := "hi", sent_keys := [("m:u", 1)], logs := [] }

/-- A system whose disk agrees with a store that messaged ("m", "u"). -/
def sysMU : Sys := { db := storeMU, disk := storeMU, calls := [] }

/-- A webhook body delivering the single change chgMU. -/
def bodyMU : WebhookBody :=
  { object := "instagram", entry := some [{ changes := some [chgMU] }] }

/-- A webhook body delivering the two changes chgMU and chgMU2. -/
def bodyFail : WebhookBody :=
  { object := "instagram", entry := some [{ changes := some [chgMU, chgMU2] }] }

/-- A store that messaged the colliding key of the pair ("a:b", "c"). -/
def storeColl : Store := { dm_text := "hi", sent_keys := [("a:b:c", 1)], logs := [] }

/-- A system state for the key-collision scenario. -/
def sysColl : Sys := { db := storeColl, disk := storeColl, calls := [] }

/-- A change for the distinct pair ("a", "b:c") sharing the key "a:b:c". -/
def chgColl : Change := { value := some { id := some "x", media_id := some "a", from_id := some "b:c" } }

/-- A store with two existing log entries, for index-shift checks. -/
def storeTwoLogs : Store :=
  { dm_text := "hi", sent_keys := [], logs := [mkLog "a" "one" [] 0, mkLog "b" "two" [] 0] }

/-- A fixed addLog invocation used to exercise the log bound. -/
def opX : LogOp := { type := "sent", msg := "x", extra := [], time := 7 }

lemma take_append_take {α : Type} (a b : List α) :
    (a ++ b.take 200).take 200 = (a ++ b).take 200 := by
  rw [List.take_append_eq_append_take, List.take_append_eq_append_take, List.take_take]
  simp [Nat.min_comm]

lemma lookupKey_insertKey_self (m : List (String × Nat)) (k : String) (v : Nat) :
    lookupKey (insertKey m k v) k = some v := by
  induction m with
  | nil => simp [insertKey, lookupKey]
  | cons p rest ih =>
    by_cases h : p.1 = k
    · simp [insertKey, lookupKey, h]
    · simp [insertKey, lookupKey, h, ih]

lemma keyTruthy_insertKey_self (m : List (String × Nat)) (k : String) (v : Nat)
    (hv : 0 < v) : keyTruthy (insertKey m k v) k = true := by
  simp [keyTruthy, lookupKey_insertKey_self, Nat.pos_iff_ne_zero.mp hv]

lemma addLog_sent_keys (d : Store) (t m : String) (ex : List (String × String)) (n : Nat) :
    (addLog d t m ex n).sent_keys = d.sent_keys := rfl

lemma addLog_logs (d : Store) (t m : String) (ex : List (String × String)) (n : Nat) :
    (addLog d t m ex n).logs = (mkLog t m ex n :: d.logs).take 200 := rfl

lemma processChange_skip (send : String → String → Except String Unit) (now : Nat)
    (s : Sys) (c : Change) (cid mid fid : String)
    (hext : extractIds c = some (cid, mid, fid))
    (hkey : keyTruthy s.db.sent_keys (mkKey mid fid) = true) :
    processChange send now s c =
      .ok { s with db := addLog s.db "skip" "Already messaged for this post" [("key", mkKey mid fid)] now } := by
  simp [processChange, hext, hkey]

lemma processChange_sent (send : String → String → Except String Unit) (now : Nat)
    (s : Sys) (c : Change) (cid mid fid : String)
    (hext : extractIds c = some (cid, mid, fid))
    (hkey : keyTruthy s.db.sent_keys (mkKey mid fid) = false)
    (hsend : send cid (messageOf s.db) = Except.ok ()) :
    processChange send now s c =
      .ok { db := addLog { s.db with sent_keys := insertKey s.db.sent_keys (mkKey mid fid) now }
                    "sent" "DM sent via private reply" [("key", mkKey mid fid), ("comment_id", cid)] now,
            disk := addLog { s.db with sent_keys := insertKey s.db.sent_keys (mkKey mid fid) now }
                    "sent" "DM sent via private reply" [("key", mkKey mid fid), ("comment_id", cid)] now,
            calls := s.calls ++ [(cid, messageOf s.db)] } := by
  simp [processChange, hext, hkey, hsend]

lemma processChange_fail (send : String → String → Except String Unit) (now : Nat)
    (s : Sys) (c : Change) (cid mid fid e : String)
    (hext : extractIds c = some (cid, mid, fid))
    (hkey : keyTruthy s.db.sent_keys (mkKey mid fid) = false)
    (hsend : send cid (messageOf s.db) = Except.error e) :
    processChange send now s c =
      .err e { s with calls := s.calls ++ [(cid, messageOf s.db)] } := by
  simp [processChange, hext, hkey, hsend]

lemma processChanges_cons_ok (send : String → String → Except String Unit) (now : Nat)
    (s s1 : Sys) (c : Change) (cs : List Change)
    (h : processChange send now s c = .ok s1) :
    processChanges send now s (c :: cs) = processChanges send now s1 cs := by
  rw [processChanges, h]

lemma processChanges_cons_err (send : String → String → Except String Unit) (now : Nat)
    (s s1 : Sys) (c : Change) (cs : List Change) (e : String)
    (h : processChange send now s c = .err e s1) :
    processChanges send now s (c :: cs) = .err e s1 := by
  rw [processChanges, h]

lemma processChanges_append_ok (send : String → String → Except String Unit) (now : Nat)
    (xs ys : List Change) (s s1 : Sys)
    (h : processChanges send now s xs = .ok s1) :
    processChanges send now s (xs ++ ys) = processChanges send now s1 ys := by
  induction xs generalizing s with
  | nil =>
    simp [processChanges] at h
    simp [h]
  | cons x xs ih =>
    simp only [processChanges, List.cons_append] at h ⊢
    cases hx : processChange send now s x with
    | ok s2 => rw [hx] at h; exact ih s2 h
    | err e s2 => rw [hx] at h; exact absurd h (by simp)

lemma processChanges_all_skip (send : String → String → Except String Unit) (now : Nat)
    (mid fid : String) (cs : List Change) :
    ∀ s : Sys, (∀ c ∈ cs, isPairChange c mid fid) →
    keyTruthy s.db.sent_keys (mkKey mid fid) = true →
    s.db.logs.length ≤ 200 →
    processChanges send now s cs = .ok
      { db := { s.db with logs := (List.replicate cs.length (skipEntry (mkKey mid fid) now) ++ s.db.logs).take 200 },
        disk := s.disk, calls := s.calls } := by
  induction cs with
  | nil =>
    intro s _ _ hlen
    simp [processChanges, List.take_of_length_le hlen]
  | cons c cs ih =>
    intro s hall hkey hlen
    obtain ⟨cid, hext⟩ := hall c (List.mem_cons_self c cs)
    rw [processChanges_cons_ok send now s _ c cs
      (processChange_skip send now s c cid mid fid hext hkey)]
    rw [ih { s with db := addLog s.db "skip" "Already messaged for this post" [("key", mkKey mid fid)] now }
      (fun c hc => hall c (List.mem_cons_of_mem _ hc)) hkey
      (by simp [addLog, List.length_take])]
    have hlogs : (List.replicate cs.length (skipEntry (mkKey mid fid) now) ++
        (addLog s.db "skip" "Already messaged for this post" [("key", mkKey mid fid)] now).logs).take 200 =
        (List.replicate (cs.length + 1) (skipEntry (mkKey mid fid) now) ++ s.db.logs).take 200 := by
      rw [addLog_logs, take_append_take, List.replicate_succ', List.append_assoc]
      rfl
    simp only [List.length_cons]
    rw [hlogs]
    rfl

lemma appendMany_logs (ops : List LogOp) :
    ∀ d : Store, d.logs.length ≤ 200 →
    (appendMany ops d).logs = ((ops.map entryOf).reverse ++ d.logs).take 200 := by
  induction ops with
  | nil =>
    intro d hlen
    simp [appendMany, List.take_of_length_le hlen]
  | cons o ops ih =>
    intro d hlen
    have step : appendMany (o :: ops) d = appendMany ops (applyOp d o) := rfl
    rw [step, ih (applyOp d o) (by simp [applyOp, addLog, List.length_take])]
    have : (applyOp d o).logs = (entryOf o :: d.logs).take 200 := rfl
    rw [this, take_append_take]
    congr 1
    simp [List.append_assoc]

lemma authOk_eq_false (apw pass : Option String) (h : apw = none ∨ pass ≠ apw) :
    authOk apw pass = false := by
  cases h with
  | inl h => subst h; rfl
  | inr h => simp [authOk, h]

lemma colon_split : ∀ (l1 r1 l2 r2 : List Char),
    ':' ∉ l1 → ':' ∉ l2 → l1 ++ ':' :: r1 = l2 ++ ':' :: r2 → l1 = l2 ∧ r1 = r2 := by
  intro l1
  induction l1 with
  | nil =>
    intro r1 l2 r2 _ h2 heq
    cases l2 with
    | nil => simpa using heq
    | cons a l2 =>
      simp only [List.nil_append, List.cons_append, List.cons.injEq] at heq
      exact absurd (List.mem_cons.mpr (Or.inl heq.1)) h2
  | cons a l1 ih =>
    intro r1 l2 r2 h1 h2 heq
    cases l2 with
    | nil =>
      simp only [List.cons_append, List.nil_append, List.cons.injEq] at heq
      exact absurd (List.mem_cons.mpr (Or.inl heq.1.symm)) h1
    | cons b l2 =>
      simp only [List.cons_append, List.cons.injEq] at heq
      obtain ⟨hab, htail⟩ := heq
      have h1' : ':' ∉ l1 := fun hm => h1 (List.mem_cons_of_mem a hm)
      have h2' : ':' ∉ l2 := fun hm => h2 (List.mem_cons_of_mem b hm)
      obtain ⟨hl, hr⟩ := ih r1 l2 r2 h1' h2' htail
      exact ⟨by rw [hab, hl], hr⟩

/-- C1: for a fixed (post_id, commenter_id) pair, a delivery sequence whose
key is not yet in the dedupe set triggers exactly one outbound call (for the
first change), inserts the key, and every subsequent change of the same pair
records a "skip" log entry and performs no outbound call. -/
theorem c1_pair_at_most_once
    (send : String → String → Except String Unit) (now : Nat) (s : Sys)
    (mid fid cid0 : String) (c0 : Change) (cs : List Change)
    (hnow : 0 < now)
    (hext : extractIds c0 = some (cid0, mid, fid))
    (hall : ∀ c ∈ cs, isPairChange c mid fid)
    (hfresh : keyTruthy s.db.sent_keys (mkKey mid fid) = false)
    (hsend : send cid0 (messageOf s.db) = Except.ok ()) :
    ∃ s' : Sys,
      processChanges send now s (c0 :: cs) = StepResult.ok s' ∧
      s'.calls = s.calls ++ [(cid0, messageOf s.db)] ∧
      s'.db.sent_keys = insertKey s.db.sent_keys (mkKey mid fid) now ∧
      keyTruthy s'.db.sent_keys (mkKey mid fid) = true ∧
      s'.db.logs = (List.replicate cs.length (skipEntry (mkKey mid fid) now) ++
        sentEntry (mkKey mid fid) cid0 now :: s.db.logs).take 200 := by
  have hkey2 : keyTruthy (insertKey s.db.sent_keys (mkKey mid fid) now) (mkKey mid fid) = true :=
    keyTruthy_insertKey_self _ _ _ hnow
  rw [processChanges_cons_ok send now s _ c0 cs
    (processChange_sent send now s c0 cid0 mid fid hext hfresh hsend)]
  rw [processChanges_all_skip send now mid fid cs _ hall hkey2
    (by simp [addLog, List.length_take])]
  refine ⟨_, rfl, rfl, rfl, hkey2, ?_⟩
  show (List.replicate cs.length (skipEntry (mkKey mid fid) now) ++
    (sentEntry (mkKey mid fid) cid0 now :: s.db.logs).take 200).take 200 = _
  rw [take_append_take]

/-- C1 witness: with a fresh store, a batch of two comment events for the
pair ("m", "u") yields one outbound call, the key in the set, and a skip. -/
theorem c1_pair_at_most_once_witness :
    ∃ s' : Sys,
      processChanges sendOk 5 defaultSys (chgMU :: [chgMU2]) = StepResult.ok s' ∧
      s'.calls = defaultSys.calls ++ [("c1", messageOf defaultSys.db)] ∧
      s'.db.sent_keys = insertKey defaultSys.db.sent_keys (mkKey "m" "u") 5 ∧
      keyTruthy s'.db.sent_keys (mkKey "m" "u") = true ∧
      s'.db.logs = (List.replicate [chgMU2].length (skipEntry (mkKey "m" "u") 5) ++
        sentEntry (mkKey "m" "u") "c1" 5 :: defaultSys.db.logs).take 200 :=
  c1_pair_at_most_once sendOk 5 defaultSys "m" "u" "c1" chgMU [chgMU2]
    (by decide) rfl
    (by intro c hc; rw [List.mem_singleton] at hc; subst hc; exact ⟨"c2", rfl⟩)
    rfl rfl

/-- C2: GET /webhook answers 200 with the verbatim challenge exactly when
mode is "subscribe" and the supplied token equals the configured secret;
any mismatch answers 403 with no body. -/
theorem c2_verify_echo (vt mode token challenge : Option String) :
    (mode = some "subscribe" ∧ token = vt →
      webhookVerify vt mode token challenge = (200, challenge)) ∧
    (¬(mode = some "subscribe" ∧ token = vt) →
      webhookVerify vt mode token challenge = (403, none)) := by
  constructor
  · intro h
    simp only [webhookVerify]
    rw [if_pos h]
  · intro h
    simp only [webhookVerify]
    rw [if_neg h]

/-- C2 witness: a matching handshake echoes the challenge with 200, and a
wrong token yields 403 with no body. -/
theorem c2_verify_echo_witness :
    webhookVerify (some "tok") (some "subscribe") (some "tok") (some "ch") = (200, some "ch") ∧
    webhookVerify (some "tok") (some "subscribe") (some "bad") (some "ch") = (403, none) :=
  ⟨(c2_verify_echo (some "tok") (some "subscribe") (some "tok") (some "ch")).1 ⟨rfl, rfl⟩,
   (c2_verify_echo (some "tok") (some "subscribe") (some "bad") (some "ch")).2 (by decide)⟩

/-- C3: every addLog places the new entry at index 0, shifts all retained
older entries by one, and bounds the log to min(previous + 1, 200); after
more than 200 appends exactly the 200 most recent remain, newest first. -/
theorem c3_log_bound_and_order :
    (∀ (d : Store) (t m : String) (ex : List (String × String)) (n : Nat),
      (addLog d t m ex n).logs.length = min (d.logs.length + 1) 200 ∧
      (addLog d t m ex n).logs.head? = some (mkLog t m ex n) ∧
      (∀ i : Nat, i + 1 < (addLog d t m ex n).logs.length →
        (addLog d t m ex n).logs[i+1]? = d.logs[i]?)) ∧
    (∀ (ops : List LogOp) (d : Store), 200 < ops.length →
      (appendMany ops d).logs = ((ops.map entryOf).reverse).take 200) := by
  constructor
  · intro d t m ex n
    refine ⟨?_, ?_, ?_⟩
    · simp only [addLog, List.length_take, List.length_cons]
      omega
    · rfl
    · intro i hi
      have hlen : (addLog d t m ex n).logs.length ≤ 200 := by
        simp [addLog, List.length_take]
      have hi200 : i + 1 < 200 := lt_of_lt_of_le hi hlen
      show ((mkLog t m ex n :: d.logs).take 200)[i+1]? = d.logs[i]?
      rw [List.getElem?_take_of_lt hi200, List.getElem?_cons_succ]
  · intro ops d hlen
    cases ops with
    | nil => simp at hlen
    | cons o ops =>
      have step : appendMany (o :: ops) d = appendMany ops (applyOp d o) := rfl
      rw [step, appendMany_logs ops (applyOp d o) (by simp [applyOp, addLog, List.length_take])]
      have h1 : (applyOp d o).logs = (entryOf o :: d.logs).take 200 := rfl
      rw [h1, take_append_take]
      have h2 : (ops.map entryOf).reverse ++ entryOf o :: d.logs =
          (((o :: ops).map entryOf).reverse) ++ d.logs := by
        simp [List.reverse_cons, List.append_assoc]
      have hle : 200 ≤ ((o :: ops).map entryOf).reverse.length := by
        simp only [List.length_reverse, List.length_map, List.length_cons]
        exact Nat.le_of_lt (by simpa using hlen)
      rw [h2, List.take_append_of_le_length hle]

/-- C3 witness: one append on a two-entry log shifts index 0 to index 1,
and 201 appends on that store leave exactly the 200 newest, newest first. -/
theorem c3_log_bound_and_order_witness :
    (addLog storeTwoLogs "sent" "x" [] 7).logs[1]? = storeTwoLogs.logs[0]? ∧
    (appendMany (List.replicate 201 opX) storeTwoLogs).logs =
      (((List.replicate 201 opX).map entryOf).reverse).take 200 :=
  ⟨(c3_log_bound_and_order.1 storeTwoLogs "sent" "x" [] 7).2.2 0 (by decide),
   c3_log_bound_and_order.2 (List.replicate 201 opX) storeTwoLogs
     (by simp only [List.length_replicate]; omega)⟩

/-- C4: an authenticated POST /admin/reset empties the dedupe set, appends
a "config" log entry, persists, and any pair becomes eligible again: the
next valid comment event triggers an outbound call. -/
theorem c4_reset_clears_dedupe
    (apw pass : Option String) (now : Nat) (s : Sys)
    (hauth : authOk apw pass = true) :
    (adminReset apw pass now s).1 = 200 ∧
    (adminReset apw pass now s).2.db.sent_keys = [] ∧
    (adminReset apw pass now s).2.db.logs =
      (mkLog "config" "sent_keys reset" [] now :: s.db.logs).take 200 ∧
    (adminReset apw pass now s).2.disk = (adminReset apw pass now s).2.db ∧
    (adminReset apw pass now s).2.calls = s.calls ∧
    (∀ key, keyTruthy (adminReset apw pass now s).2.db.sent_keys key = false) ∧
    (∀ (send : String → String → Except String Unit) (c : Change) (cid mid fid : String),
      extractIds c = some (cid, mid, fid) →
      send cid (messageOf (adminReset apw pass now s).2.db) = Except.ok () →
      ∃ s' : Sys, processChange send now (adminReset apw pass now s).2 c = StepResult.ok s' ∧
        s'.calls = (adminReset apw pass now s).2.calls ++
          [(cid, messageOf (adminReset apw pass now s).2.db)]) := by
  have hres : adminReset apw pass now s =
      (200, { db := addLog { s.db with sent_keys := [] } "config" "sent_keys reset" [] now,
              disk := addLog { s.db with sent_keys := [] } "config" "sent_keys reset" [] now,
              calls := s.calls }) := by
    simp [adminReset, hauth]
  rw [hres]
  refine ⟨rfl, rfl, rfl, rfl, rfl, fun key => rfl, ?_⟩
  intro send c cid mid fid hext hsend
  exact ⟨_, processChange_sent send now _ c cid mid fid hext rfl hsend, rfl⟩

/-- C4 witness: resetting a store that already messaged the pair ("m", "u")
empties the set, and the next event for that pair makes an outbound call. -/
theorem c4_reset_clears_dedupe_witness :
    (adminReset (some "pw") (some "pw") 5 sysMU).2.db.sent_keys = [] ∧
    (∃ s' : Sys,
      processChange sendOk 5 (adminReset (some "pw") (some "pw") 5 sysMU).2 chgMU2 = StepResult.ok s' ∧
      s'.calls = (adminReset (some "pw") (some "pw") 5 sysMU).2.calls ++
        [("c2", messageOf (adminReset (some "pw") (some "pw") 5 sysMU).2.db)]) :=
  have h := c4_reset_clears_dedupe (some "pw") (some "pw") 5 sysMU (by decide)
  ⟨h.2.1, h.2.2.2.2.2.2 sendOk chgMU2 "c2" "m" "u" rfl rfl⟩

/-- C5: when the outbound call of a change fails, the catch-all appends exactly
one "error" log entry carrying the stringified reason, persists, inserts no
dedupe key for the failing change, and never touches the changes after it
in the batch (the result does not depend on post). -/
theorem c5_batch_abort
    (send : String → String → Except String Unit) (now : Nat) (b : WebhookBody)
    (s s1 : Sys) (pre post : List Change) (cf : Change) (cidf midf fidf e : String)
    (hobj : b.object = "instagram")
    (hsplit : allChanges b = pre ++ cf :: post)
    (hpre : processChanges send now s pre = StepResult.ok s1)
    (hext : extractIds cf = some (cidf, midf, fidf))
    (hfresh : keyTruthy s1.db.sent_keys (mkKey midf fidf) = false)
    (hfail : send cidf (messageOf s1.db) = Except.error e) :
    postWebhook send now b s =
      { db := addLog s1.db "error" "Webhook processing failed" [("error", e)] now,
        disk := addLog s1.db "error" "Webhook processing failed" [("error", e)] now,
        calls := s1.calls ++ [(cidf, messageOf s1.db)] } ∧
    (postWebhook send now b s).db.sent_keys = s1.db.sent_keys ∧
    (postWebhook send now b s).db.logs = (errorEntry e now :: s1.db.logs).take 200 := by
  have hrun : processChanges send now s (allChanges b) =
      StepResult.err e { s1 with calls := s1.calls ++ [(cidf, messageOf s1.db)] } := by
    rw [hsplit, processChanges_append_ok send now pre (cf :: post) s s1 hpre,
      processChanges_cons_err send now s1 _ cf post e
        (processChange_fail send now s1 cf cidf midf fidf e hext hfresh hfail)]
  have hmain : postWebhook send now b s =
      { db := addLog s1.db "error" "Webhook processing failed" [("error", e)] now,
        disk := addLog s1.db "error" "Webhook processing failed" [("error", e)] now,
        calls := s1.calls ++ [(cidf, messageOf s1.db)] } := by
    simp only [postWebhook]
    rw [if_pos hobj, hrun]
  exact ⟨hmain, by rw [hmain]; rfl, by rw [hmain]; rfl⟩

/-- C5 witness: a two-change batch whose first outbound call fails yields
one "error" entry, a persisted store, no dedupe key, and the second change
is not processed in that delivery. -/
theorem c5_batch_abort_witness :
    postWebhook sendBoom 5 bodyFail defaultSys =
      { db := addLog defaultSys.db "error" "Webhook processing failed" [("error", "boom")] 5,
        disk := addLog defaultSys.db "error" "Webhook processing failed" [("error", "boom")] 5,
        calls := defaultSys.calls ++ [("c1", messageOf defaultSys.db)] } ∧
    (postWebhook sendBoom 5 bodyFail defaultSys).db.sent_keys = defaultSys.db.sent_keys ∧
    (postWebhook sendBoom 5 bodyFail defaultSys).db.logs =
      (errorEntry "boom" 5 :: defaultSys.db.logs).take 200 :=
  c5_batch_abort sendBoom 5 bodyFail defaultSys defaultSys [] [chgMU2] chgMU
    "c1" "m" "u" "boom" rfl rfl rfl rfl rfl rfl

/-- C6: a missing or wrong admin password (or an unset configured password)
yields 401 from GET /admin, POST /admin/save and POST /admin/reset, with
the system state returned completely unchanged. -/
theorem c6_unauthorized_admin
    (apw pass body_dm : Option String) (now : Nat) (s : Sys)
    (hbad : apw = none ∨ pass ≠ apw) :
    adminGet apw pass s = (401, s) ∧
    adminSave apw pass body_dm now s = (401, s) ∧
    adminReset apw pass now s = (401, s) := by
  have h := authOk_eq_false apw pass hbad
  refine ⟨?_, ?_, ?_⟩ <;> simp [adminGet, adminSave, adminReset, h]

/-- C6 witness: a wrong password leaves every admin route at 401 and the
state untouched. -/
theorem c6_unauthorized_admin_witness :
    adminGet (some "pw") (some "wrong") sysMU = (401, sysMU) ∧
    adminSave (some "pw") (some "wrong") (some "new text") 5 sysMU = (401, sysMU) ∧
    adminReset (some "pw") (some "wrong") 5 sysMU = (401, sysMU) :=
  c6_unauthorized_admin (some "pw") (some "wrong") (some "new text") 5 sysMU
    (Or.inr (by decide))

/-- C7: an authenticated POST /admin/save trims the submitted text, stores
it when non-empty and keeps the old text when empty, always appends a
"config" log entry, persists, and changes no other store field. -/
theorem c7_save_trim_or_keep
    (apw pass body_dm : Option String) (now : Nat) (s : Sys)
    (hauth : authOk apw pass = true) :
    (adminSave apw pass body_dm now s).1 = 302 ∧
    (adminSave apw pass body_dm now s).2.db.dm_text =
      (if ((body_dm.getD "").trim).isEmpty then s.db.dm_text else (body_dm.getD "").trim) ∧
    (adminSave apw pass body_dm now s).2.db.logs =
      (mkLog "config" "DM text updated" [] now :: s.db.logs).take 200 ∧
    (adminSave apw pass body_dm now s).2.db.sent_keys = s.db.sent_keys ∧
    (adminSave apw pass body_dm now s).2.disk = (adminSave apw pass body_dm now s).2.db ∧
    (adminSave apw pass body_dm now s).2.calls = s.calls := by
  refine ⟨?_, ?_, ?_, ?_, ?_, ?_⟩ <;> simp [adminSave, hauth, addLog]

/-- C7 witness: saving "  hello  " under the right password redirects,
trims the text, logs "config", persists, and keeps the dedupe set. -/
theorem c7_save_trim_or_keep_witness :
    (adminSave (some "pw") (some "pw") (some "  hello  ") 5 sysMU).1 = 302 ∧
    (adminSave (some "pw") (some "pw") (some "  hello  ") 5 sysMU).2.db.dm_text =
      (if (((some "  hello  ").getD "").trim).isEmpty then sysMU.db.dm_text
       else ((some "  hello  ").getD "").trim) ∧
    (adminSave (some "pw") (some "pw") (some "  hello  ") 5 sysMU).2.db.logs =
      (mkLog "config" "DM text updated" [] 5 :: sysMU.db.logs).take 200 ∧
    (adminSave (some "pw") (some "pw") (some "  hello  ") 5 sysMU).2.db.sent_keys =
      sysMU.db.sent_keys ∧
    (adminSave (some "pw") (some "pw") (some "  hello  ") 5 sysMU).2.disk =
      (adminSave (some "pw") (some "pw") (some "  hello  ") 5 sysMU).2.db ∧
    (adminSave (some "pw") (some "pw") (some "  hello  ") 5 sysMU).2.calls = sysMU.calls :=
  c7_save_trim_or_keep (some "pw") (some "pw") (some "  hello  ") 5 sysMU (by decide)

/-- C8 counterexample: a delivery whose only change is already deduplicated
appends a "skip" log entry to the in-memory store but the code performs no
saveData on that path, so the disk copy stays behind the mutated store. -/
theorem c8_skip_not_persisted_counterexample :
    (postWebhook sendOk 5 bodyMU sysMU).db ≠ (postWebhook sendOk 5 bodyMU sysMU).disk ∧
    (postWebhook sendOk 5 bodyMU sysMU).db.logs.length = sysMU.db.logs.length + 1 ∧
    (postWebhook sendOk 5 bodyMU sysMU).disk = sysMU.disk := by decide

/-- C8 amended: a disk write follows every "sent", "error" and "config"
mutation before the handler proceeds, but the "skip" log entry is recorded
in memory only: that branch leaves the disk copy untouched. -/
theorem c8_persist_amended :
    (∀ (send : String → String → Except String Unit) (now : Nat) (s : Sys)
       (c : Change) (cid mid fid : String),
      extractIds c = some (cid, mid, fid) →
      keyTruthy s.db.sent_keys (mkKey mid fid) = false →
      send cid (messageOf s.db) = Except.ok () →
      ∃ s', processChange send now s c = StepResult.ok s' ∧ s'.disk = s'.db) ∧
    (∀ (send : String → String → Except String Unit) (now : Nat)
       (b : WebhookBody) (s : Sys) (e : String) (s1 : Sys),
      b.object = "instagram" →
      processChanges send now s (allChanges b) = StepResult.err e s1 →
      (postWebhook send now b s).disk = (postWebhook send now b s).db) ∧
    (∀ (apw pass body_dm : Option String) (now : Nat) (s : Sys),
      authOk apw pass = true →
      (adminSave apw pass body_dm now s).2.disk = (adminSave apw pass body_dm now s).2.db) ∧
    (∀ (apw pass : Option String) (now : Nat) (s : Sys),
      authOk apw pass = true →
      (adminReset apw pass now s).2.disk = (adminReset apw pass now s).2.db) ∧
    (∀ (send : String → String → Except String Unit) (now : Nat) (s : Sys)
       (c : Change) (cid mid fid : String),
      extractIds c = some (cid, mid, fid) →
      keyTruthy s.db.sent_keys (mkKey mid fid) = true →
      ∃ s', processChange send now s c = StepResult.ok s' ∧ s'.disk = s.disk ∧
        s'.db = addLog s.db "skip" "Already messaged for this post" [("key", mkKey mid fid)] now) := by
  refine ⟨?_, ?_, ?_, ?_, ?_⟩
  · intro send now s c cid mid fid hext hfresh hsend
    exact ⟨_, processChange_sent send now s c cid mid fid hext hfresh hsend, rfl⟩
  · intro send now b s e s1 hobj herr
    simp only [postWebhook]
    rw [if_pos hobj, herr]
  · intro apw pass body_dm now s hauth
    simp [adminSave, hauth]
  · intro apw pass now s hauth
    simp [adminReset, hauth]
  · intro send now s c cid mid fid hext hkey
    exact ⟨_, processChange_skip send now s c cid mid fid hext hkey, rfl, rfl⟩

/-- C8 amended witness: a fresh send persists (disk equals the store), an
authenticated reset persists, and a deduplicated change mutates the store
while leaving the disk copy exactly as it was. -/
theorem c8_persist_amended_witness :
    (∃ s', processChange sendOk 5 defaultSys chgMU = StepResult.ok s' ∧ s'.disk = s'.db) ∧
    (adminReset (some "pw") (some "pw") 5 sysMU).2.disk =
      (adminReset (some "pw") (some "pw") 5 sysMU).2.db ∧
    (∃ s', processChange sendOk 5 sysMU chgMU = StepResult.ok s' ∧ s'.disk = sysMU.disk ∧
      s'.db = addLog sysMU.db "skip" "Already messaged for this post" [("key", mkKey "m" "u")] 5) :=
  ⟨c8_persist_amended.1 sendOk 5 defaultSys chgMU "c1" "m" "u" rfl rfl rfl,
   c8_persist_amended.2.2.2.1 (some "pw") (some "pw") 5 sysMU (by decide),
   c8_persist_amended.2.2.2.2 sendOk 5 sysMU chgMU "c1" "m" "u" rfl (by decide)⟩

/-- C9: with VERIFY_TOKEN unset, a subscribe request that omits the token
passes the strict equality (both values absent) and echoes the challenge
with 200, while an unset ADMIN_PASSWORD makes every admin request fail. -/
theorem c9_unset_verify_token_accepts :
    (∀ challenge : Option String,
      webhookVerify none (some "subscribe") none challenge = (200, challenge)) ∧
    (∀ pass : Option String, authOk none pass = false) ∧
    (∀ (pass : Option String) (s : Sys), adminGet none pass s = (401, s)) :=
  ⟨fun _ => rfl, fun _ => rfl, fun _ _ => rfl⟩

/-- C10: the key encoding collides: the distinct pairs ("a:b", "c") and
("a", "b:c") share the key "a:b:c", so a reply sent for the first pair makes
a change for the second pair take the "skip" branch with no outbound call; the
encoding is injective once the post id contains no colon. -/
theorem c10_key_not_injective :
    (mkKey "a:b" "c" = mkKey "a" "b:c") ∧
    (("a:b", "c") ≠ (("a" : String), ("b:c" : String))) ∧
    (processChange sendOk 5 sysColl chgColl = StepResult.ok
      { sysColl with db := (addLog sysColl.db "skip" "Already messaged for this post"
          [("key", mkKey "a" "b:c")] 5) }) ∧
    (∀ m1 f1 m2 f2 : String, ':' ∉ m1.data → ':' ∉ m2.data →
      mkKey m1 f1 = mkKey m2 f2 → m1 = m2 ∧ f1 = f2) := by
  refine ⟨by decide, by decide, by decide, ?_⟩
  intro m1 f1 m2 f2 h1 h2 heq
  have hdata : m1.data ++ ':' :: f1.data = m2.data ++ ':' :: f2.data := by
    have h := congrArg String.data heq
    simp only [mkKey, String.data_append] at h
    simpa [List.append_assoc] using h
  obtain ⟨hl, hr⟩ := colon_split m1.data f1.data m2.data f2.data h1 h2 hdata
  exact ⟨String.ext hl, String.ext hr⟩

/-- C10 witness: the injectivity half applied to the colon-free pair
("m", "u") against itself. -/
theorem c10_key_not_injective_witness :
    ("m" : String) = "m" ∧ ("u" : String) = "u" :=
  c10_key_not_injective.2.2.2 "m" "u" "m" "u" (by decide) (by decide) rfl
